import Mathlib

/-!
Verification of the mkosi partition-table engine and staged build pipeline
(`src/mkosi/__init__.py`) against its natural-language specification.

The Python code is shallowly embedded: pure arithmetic helpers become Lean
functions on `Nat`, the mutable `CommandLineArguments`/disk state becomes an
explicit state record threaded through the operations, and external tools
(sfdisk) are modelled by the layout semantics the code relies on (descriptor
lines are replayed verbatim; a size-only descriptor is allocated at the first
grain-aligned free offset, which is exactly the `partition_offset` the code
computes and grows the image for).
-/

/-- Embeds `roundup(x, step)` (line 335): `((x + step - 1) // step) * step`. -/
def roundup (x step : Nat) : Nat := ((x + step - 1) / step) * step

/-- One parsed partition-descriptor line of the sfdisk dump mini-language
(`<dev>: start=<S>, size=<N>, type=<UUID>, attrs=<A>, name="<N>", uuid=<U>`).
The engine stores descriptor lines as opaque text and re-parses only the
`start=`/`size=` fields; we keep the parsed form.  `start` and `size` are in
512-byte sectors, `ptype` and `puuid` are 128-bit UUID values. -/
structure PartDesc where
  start : Nat
  size : Nat
  puuid : Option Nat
  ptype : Nat
  readOnly : Bool
  pname : String
deriving DecidableEq, Repr

/-- Embeds the `PartitionTable` dataclass (lines 3592-3599).  In the source
`partitions` is the list of descriptor lines kept verbatim;
`last_partition_sector` is a byte offset (`last_sector * sector_size`) despite
its name, and is `None` for a synthesized empty table. -/
structure PartitionTable where
  partitions : List PartDesc
  last_partition_sector : Option Nat
  sector_size : Nat
  first_lba : Option Nat
  grain : Nat
deriving DecidableEq, Repr

/-- Embeds `PartitionTable.empty` (line 3652): `cls([], None, 512, first_lba)`
with the dataclass default `grain = 4096`. -/
def PartitionTable.empty (first_lba : Option Nat) : PartitionTable :=
  ⟨[], none, 512, first_lba, 4096⟩

/-- Embeds `PartitionTable.footer_size` (lines 3666-3671):
`pea_sectors = math.ceil(max_partitions * 128 / sector_size)`;
`(1 + pea_sectors) * sector_size`.  The float ceiling division is exact on the
integer inputs involved, so it is the Nat ceiling division. -/
def PartitionTable.footer_size (t : PartitionTable) (max_partitions : Nat) : Nat :=
  let pea_sectors := (max_partitions * 128 + t.sector_size - 1) / t.sector_size
  (1 + pea_sectors) * t.sector_size

/-- Embeds `PartitionTable.first_usable_offset` (lines 3656-3664).  The Python
guard `if self.last_partition_sector:` is truthiness: it is taken for a present
nonzero value and falls through for `None` and for `0`.  Note the source calls
`self.footer_size()` with its default `max_partitions = 128` there, ignoring
the parameter of `first_usable_offset`. -/
def PartitionTable.first_usable_offset (t : PartitionTable) (_max_partitions : Nat) : Nat :=
  if t.last_partition_sector.getD 0 ≠ 0 then
    roundup (t.last_partition_sector.getD 0) t.grain
  else
    match t.first_lba with
    | some lba => lba * t.sector_size
    | none => roundup (t.sector_size + t.footer_size 128) t.grain

/-- The `max(last_sector, start + size)` accumulation of `PartitionTable.read`
(lines 3604, 3646-3648), over the parsed descriptors, in sectors. -/
def lastSectorOf (ps : List PartDesc) : Nat :=
  ps.foldl (fun acc p => max acc (p.start + p.size)) 0

/-- The configuration fields of `CommandLineArguments` consulted by
`insert_partition`. -/
structure Args where
  gpt_first_lba : Option Nat
  encrypt_all : Bool
deriving DecidableEq, Repr

/-- The mutable on-disk state `insert_partition` works on: the partitions in
table order (partition number n is entry n-1), the size of the backing file,
the `args.ran_sfdisk` flag (stored on `args` in the source), and the
`first-lba` header the next sfdisk dump would report. -/
structure DiskState where
  parts : List PartDesc
  deviceSize : Nat
  ran_sfdisk : Bool
  tableFirstLba : Option Nat
deriving DecidableEq, Repr

/-- Embeds `PartitionTable.read` (lines 3601-3650) applied to the live device:
sfdisk dumps one descriptor per partition (each with `start=` and `size=`),
`sector-size: 512` for a loop device, and the stored `first-lba`; the parse
returns `cls(table, last_sector * sector_size, sector_size, first_lba)`. -/
def readTable (s : DiskState) : PartitionTable :=
  ⟨s.parts, some (lastSectorOf s.parts * 512), 512, s.tableFirstLba, 4096⟩

/-- Lines 3685-3689: re-read the table if we ran sfdisk before, otherwise fake
an empty one with the configured first LBA. -/
def effective_table (args : Args) (s : DiskState) : PartitionTable :=
  if s.ran_sfdisk then readTable s else PartitionTable.empty args.gpt_first_lba

/-- Line 3692: `16 * 1024 * 1024 if args.encrypt == "all" else 0`. -/
def luks_extra_of (args : Args) : Nat :=
  if args.encrypt_all then 16 * 1024 * 1024 else 0

/-- Embeds `insert_partition` (lines 3674-3752), state part.  Steps mirrored
from the source: read or synthesize the old table; round the blob size up to
512; add the LUKS reservation when full-disk encryption is active; compute the
new total size and grow the backing file; emit `label: gpt`, `grain:`, an
optional `first-lba:` header, all old descriptor lines verbatim and one new
size-only descriptor; reapply with sfdisk.  sfdisk allocates the size-only
descriptor at the first grain-aligned free offset at or after `first-lba`,
which is exactly the `partition_offset` the code computed and grew the image
for; the blob write does not change the table.  Returns the new state and the
Python return value `blob_size`. -/
def insert_partition (args : Args) (s : DiskState) (blobFileSize : Nat)
    (pname : String) (type_uuid : Nat) (read_only : Bool) (uuid_opt : Option Nat) :
    DiskState × Nat :=
  let old_table := effective_table args s
  let blob_size := roundup blobFileSize 512
  let luks_extra := luks_extra_of args
  let partition_offset := old_table.first_usable_offset 128
  let new_size := roundup (partition_offset + blob_size + luks_extra + old_table.footer_size 128) 4096
  let first_lba : Option Nat :=
    match args.gpt_first_lba with
    | some l => some l
    | none =>
      if old_table.partitions.isEmpty then some (partition_offset / old_table.sector_size)
      else none
  let n_sectors := (blob_size + luks_extra) / 512
  let newPart : PartDesc :=
    ⟨partition_offset / old_table.sector_size, n_sectors, uuid_opt, type_uuid, read_only, pname⟩
  let newFirstLba := match first_lba with
    | some l => some l
    | none => s.tableFirstLba
  (⟨old_table.partitions ++ [newPart], new_size, true, newFirstLba⟩, blob_size)

/-- One `insert_partition` call of a sequence: the blob file size together
with the name/type/read-only/uuid arguments. -/
structure InsertReq where
  blob : Nat
  pname : String
  ptype : Nat
  ro : Bool
  puuid : Option Nat
deriving DecidableEq, Repr

/-- The device size after each call of a sequence of `insert_partition`
calls. -/
def device_sizes (args : Args) : DiskState → List InsertReq → List Nat
  | _, [] => []
  | s, r :: rs =>
    let s2 := (insert_partition args s r.blob r.pname r.ptype r.ro r.puuid).1
    s2.deviceSize :: device_sizes args s2 rs

/-- The sizes the spec formula predicts: `round4096(F + Σ sector-rounded blob
sizes + footer)` where `F` is the first usable offset of the initial table and
the sum ranges over the blobs inserted so far.  `acc` carries the sum of the
previous rounded blob sizes. -/
def spec_claimed_sizes (F footer : Nat) : Nat → List Nat → List Nat
  | _, [] => []
  | acc, b :: bs =>
    roundup (F + (acc + roundup b 512) + footer) 4096 ::
      spec_claimed_sizes F footer (acc + roundup b 512) bs

/-- The sizes the code actually produces, as a recurrence: each call lands the
partition at the running offset (the previous end rounded up to the grain),
and the device is grown to `round4096(offset + blob + luks + footer)`. -/
def code_sizes (args : Args) : Nat → List InsertReq → List Nat
  | _, [] => []
  | off, r :: rs =>
    roundup (off + roundup r.blob 512 + luks_extra_of args + 16896) 4096 ::
      code_sizes args (roundup (off + roundup r.blob 512 + luks_extra_of args) 4096) rs

/-- Value of one hex digit, as accepted by Python `int(x, 16)`: the ASCII
ranges 0-9 (codes 48-57), a-f (97-102) and A-F (65-70). -/
def hexVal (c : Char) : Option Nat :=
  if 48 ≤ c.toNat ∧ c.toNat ≤ 57 then some (c.toNat - 48)
  else if 97 ≤ c.toNat ∧ c.toNat ≤ 102 then some (c.toNat - 97 + 10)
  else if 65 ≤ c.toNat ∧ c.toNat ≤ 70 then some (c.toNat - 65 + 10)
  else none

/-- Base-16 parse (`int(hex, 16)`), failing on a non-hex character. -/
def parseHexAux : List Char → Nat → Option Nat
  | [], acc => some acc
  | c :: cs, acc =>
    match hexVal c with
    | some v => parseHexAux cs (acc * 16 + v)
    | none => none

/-- Total base-16 valuation (invalid digits count as 0); agrees with
`parseHexAux` on all-hex input. -/
def valHex : List Char → Nat → Nat
  | [], acc => acc
  | c :: cs, acc => valHex cs (acc * 16 + (hexVal c).getD 0)

/-- Embeds `uuid.UUID(hex)` for the plain hex-string form used here: hyphens
are stripped, exactly 32 hex digits are required (else `ValueError`), and the
UUID's value is `int(hex, 16)`. -/
def pyUUID (s : List Char) : Option Nat :=
  if (s.filter (fun c => c ≠ '-')).length = 32 then
    parseHexAux (s.filter (fun c => c ≠ '-')) 0
  else none

/-- Line 3825: `uuid.UUID(root_hash[-32:])` - the Python slice `[-32:]` keeps
the last 32 characters (everything when shorter). -/
def insert_verity_uuid (root_hash : List Char) : Option Nat :=
  pyUUID (root_hash.drop (root_hash.length - 32))

/-- Line 3852: `uuid.UUID(root_hash[:32])`. -/
def patch_root_uuid_val (root_hash : List Char) : Option Nat :=
  pyUUID (root_hash.take 32)

/-- Embeds `insert_verity` (lines 3807-3838): computes the verity partition
UUID from the tail of the root hash (a `ValueError` aborts if it is not a
valid UUID) and hands it to `insert_partition` with `read_only = True`. -/
def insert_verity_step (args : Args) (s : DiskState) (verity_blob : Nat)
    (pname : String) (ty : Nat) (root_hash : List Char) : Option (DiskState × Nat) :=
  match insert_verity_uuid root_hash with
  | none => none
  | some u => some (insert_partition args s verity_blob pname ty true (some u))

/-- Embeds `patch_root_uuid` (lines 3841-3856): `sfdisk --part-uuid` sets the
uuid of partition number `root_partno` (entry `root_partno - 1` of the table)
in place, leaving everything else unchanged. -/
def patch_root_uuid_step (s : DiskState) (root_partno : Nat) (root_hash : List Char) :
    Option DiskState :=
  match patch_root_uuid_val root_hash with
  | none => none
  | some u =>
    some ⟨s.parts.mapIdx (fun i p => if i + 1 = root_partno then { p with puuid := some u } else p),
          s.deviceSize, s.ran_sfdisk, s.tableFirstLba⟩

/-- A concrete 64-hex-digit fixture root hash. -/
def c5hash : List Char :=
  "00112233445566778899aabbccddeeff5566778899aabbccddeeff0011223344".toList

/-- The worked counterexample configuration for the geometry claim: no
first-LBA override and no full-disk encryption, starting from an image with
no partition table yet. -/
def c2args : Args := ⟨none, false⟩

/-- The initial disk state for the geometry counterexample. -/
def c2s0 : DiskState := ⟨[], 0, false, none⟩

/-- Modelled from the spec: `OutputFormat` and its `is_disk` / `is_disk_rw` /
`is_squashfs` predicates live in the `backend` module, which is not among the
provided sources; only its members and uses appear in `__init__.py`.  Per the
spec (sections 2, 4.2, 6): the disk formats are the GPT ones, the read-write
disk formats are the GPT filesystem variants (ext4/xfs/btrfs), and the
squashfs formats are the two squashfs variants. -/
inductive OutputFormat where
  | directory
  | subvolume
  | tar
  | cpio
  | gpt_ext4
  | gpt_xfs
  | gpt_btrfs
  | gpt_squashfs
  | plain_squashfs
deriving DecidableEq, Repr

/-- Modelled from the spec: read-write disk formats. -/
def OutputFormat.is_disk_rw : OutputFormat → Bool
  | .gpt_ext4 | .gpt_xfs | .gpt_btrfs => true
  | _ => false

/-- Modelled from the spec: disk formats (read-write plus squashfs-on-GPT). -/
def OutputFormat.is_disk : OutputFormat → Bool
  | .gpt_ext4 | .gpt_xfs | .gpt_btrfs | .gpt_squashfs => true
  | _ => false

/-- Modelled from the spec: squashfs formats. -/
def OutputFormat.is_squashfs : OutputFormat → Bool
  | .gpt_squashfs | .plain_squashfs => true
  | _ => false

/-- The configuration fields of `CommandLineArguments` consulted by the
staged pipeline claims.  Cache artifact paths are modelled as optional file
names (Nat). -/
structure MkosiArgs where
  verity : Bool
  output_format : OutputFormat
  minimize : Bool
  usr_only : Bool
  has_build_script : Bool
  incremental : Bool
  cache_pre_dev : Option Nat
  cache_pre_inst : Option Nat
  force_count : Nat
  skip_final_phase : Bool
  bootable : Bool
  boot_uefi : Bool
  boot_bios : Bool
  xbootldr_size : Option Nat
  swap_size : Option Nat
  home_size : Option Nat
  srv_size : Option Nat
  var_size : Option Nat
  tmp_size : Option Nat
deriving DecidableEq, Repr

/-- Embeds `is_generated_root` (lines 514-518):
`args.minimize or args.output_format.is_squashfs() or args.usr_only`. -/
def is_generated_root (a : MkosiArgs) : Bool :=
  a.minimize || a.output_format.is_squashfs || a.usr_only

/-- The partition numbers assigned by `determine_partition_table`. -/
structure PartNos where
  esp : Option Nat
  bios : Option Nat
  xbootldr : Option Nat
  swap : Option Nat
  home : Option Nat
  srv : Option Nat
  var : Option Nat
  tmp : Option Nat
  root : Nat
  verity : Option Nat
deriving DecidableEq, Repr

/-- Embeds `determine_partition_table` (lines 598-683): one partition-number
counter `pn` starting at 1, incremented in fixed role order (ESP, BIOS boot,
XBOOTLDR, swap, then home/srv/var/tmp for non-btrfs formats, then root, then
verity).  The root number is taken even when no root descriptor line is
emitted (generated root).  The returned Bool is `run_sfdisk` (the XBOOTLDR
branch does not set it in the source). -/
def determine_partition_table (a : MkosiArgs) : PartNos × Bool :=
  let pn1 := 1
  let esp := if a.bootable && a.boot_uefi then some pn1 else none
  let pn2 := if a.bootable && a.boot_uefi then pn1 + 1 else pn1
  let bios := if a.bootable && a.boot_bios then some pn2 else none
  let pn3 := if a.bootable && a.boot_bios then pn2 + 1 else pn2
  let xbootldr := if a.xbootldr_size.isSome then some pn3 else none
  let pn4 := if a.xbootldr_size.isSome then pn3 + 1 else pn3
  let swap := if a.swap_size.isSome then some pn4 else none
  let pn5 := if a.swap_size.isSome then pn4 + 1 else pn4
  let hcond := !(a.output_format == OutputFormat.gpt_btrfs)
  let home := if hcond && a.home_size.isSome then some pn5 else none
  let pn6 := if hcond && a.home_size.isSome then pn5 + 1 else pn5
  let srv := if hcond && a.srv_size.isSome then some pn6 else none
  let pn7 := if hcond && a.srv_size.isSome then pn6 + 1 else pn6
  let var := if hcond && a.var_size.isSome then some pn7 else none
  let pn8 := if hcond && a.var_size.isSome then pn7 + 1 else pn7
  let tmp := if hcond && a.tmp_size.isSome then some pn8 else none
  let pn9 := if hcond && a.tmp_size.isSome then pn8 + 1 else pn8
  let root := pn9
  let verity := if a.verity then some (pn9 + 1) else none
  let run_sfdisk := a.bootable || a.swap_size.isSome ||
    (hcond && (a.home_size.isSome || a.srv_size.isSome ||
      a.var_size.isSome || a.tmp_size.isSome)) ||
    !(is_generated_root a)
  (⟨esp, bios, xbootldr, swap, home, srv, var, tmp, root, verity⟩, run_sfdisk)

/-- File-system state for the cache claims: file names to contents. -/
def FsState := Nat → Option Nat

/-- Pointwise update of a file-system state. -/
def fs_set (fs : FsState) (n : Nat) (c : Option Nat) : FsState :=
  fun m => if m = n then c else fs m

/-- Embeds `copy_image_temporary` (lines 772-788): opens the source
read-only, creates a fresh temporary file and copies the content into it
(reflink or `copyfileobj`); the source is never removed or written.  Fails
with `FileNotFoundError` when the source does not exist. -/
def copy_image_temporary (fs : FsState) (src tmp : Nat) : Option (FsState × Nat) :=
  match fs src with
  | none => none
  | some c => some (fs_set fs tmp (some c), c)

/-- Embeds `reuse_cache_image` (lines 797-828).  Returns the file-system
state, the content of the working copy when one was made, and the `cached`
flag.  Branches mirrored in order: not incremental; not a read-write disk
format; `for_cache` probes existence only; unset cache name; copy, with
`FileNotFoundError` mapped to `(None, False)`. -/
def reuse_cache_image (a : MkosiArgs) (d f : Bool) (fs : FsState) (tmp : Nat) :
    FsState × Option Nat × Bool :=
  if !a.incremental then (fs, none, false)
  else if !a.output_format.is_disk_rw then (fs, none, false)
  else
    match if d then a.cache_pre_dev else a.cache_pre_inst with
    | some n =>
      if f then
        if (fs n).isSome then (fs, none, true) else (fs, none, false)
      else
        match copy_image_temporary fs n tmp with
        | none => (fs, none, false)
        | some r => (r.1, some r.2, true)
    | none => (fs, none, false)

/-- Embeds `reuse_cache_tree` (lines 6361-6386): copies the cached tree into
`root` with `copy_path` (a recursive read-and-copy that never modifies the
source); returns True whenever a cache name is configured for the pass, even
if nothing was copied. -/
def reuse_cache_tree (a : MkosiArgs) (root : Nat) (d f cached : Bool) (fs : FsState) :
    FsState × Bool :=
  if cached then (fs, true)
  else if !a.incremental then (fs, false)
  else if f then (fs, false)
  else if a.output_format.is_disk_rw then (fs, false)
  else
    match if d then a.cache_pre_dev else a.cache_pre_inst with
    | none => (fs, false)
    | some n =>
      match fs n with
      | some c => (fs_set fs root (some c), true)
      | none => (fs, true)

/-- Presence of `make_generated_root`'s result (lines 3574-3589): requires a
generated-root configuration and an ext4/btrfs/squashfs output, and every
generator returns None in a cache pass. -/
def gen_root_present (a : MkosiArgs) (f : Bool) : Bool :=
  is_generated_root a &&
    (match a.output_format with
     | .gpt_ext4 => !f
     | .gpt_btrfs => !f
     | fmt => fmt.is_squashfs && !f)

/-- Presence of the root-hash field of the `BuildOutput` bundle returned by
`build_image` (lines 6505-6635): the development-pass-without-build-script
early exit and the cache-image-found early exit return the empty bundle;
otherwise the field is `make_verity`'s hash, produced iff not a development
pass, verity requested, and not a cache pass (lines 3786-3792). -/
def root_hash_present (a : MkosiArgs) (d f : Bool) (fs : FsState) (tmp : Nat) : Bool :=
  if !a.has_build_script && d then false
  else if f && (reuse_cache_image a d f fs tmp).2.2 then false
  else !d && a.verity && !f

/-- Presence of the raw-image field of the bundle
(`BuildOutput(raw or generated_root, ...)`, line 6635): after the same early
exits, the image is the cache copy when one was made, else `create_image`'s
file (present iff a disk format, lines 697-699), else the generated root. -/
def raw_present (a : MkosiArgs) (d f : Bool) (fs : FsState) (tmp : Nat) : Bool :=
  if !a.has_build_script && d then false
  else if f && (reuse_cache_image a d f fs tmp).2.2 then false
  else
    (if (reuse_cache_image a d f fs tmp).2.2 then true else a.output_format.is_disk) ||
      gen_root_present a f

/-- Observable calls of `build_image` around the root/verity insertions
(lines 6600-6610), in program order. -/
inductive ImgEvent where
  | insertGeneratedRootEv
  | makeVerityEv
  | patchRootUuidEv
  | insertVerityEv
deriving DecidableEq, Repr

/-- The trace of `build_image` (lines 6505-6635) restricted to the
root/verity segment: the two early exits produce no events; otherwise
`insert_generated_root` runs iff a generated-root disk build outside a cache
pass (lines 3762-3771), `make_verity` is always called, and
`patch_root_uuid` / `insert_verity` run iff a root hash was produced and this
is not a cache pass (lines 3807-3856). -/
def build_image_trace (a : MkosiArgs) (d f : Bool) (fs : FsState) (tmp : Nat) : List ImgEvent :=
  if !a.has_build_script && d then []
  else if f && (reuse_cache_image a d f fs tmp).2.2 then []
  else
    (if is_generated_root a && a.output_format.is_disk && !f then
      [ImgEvent.insertGeneratedRootEv]
     else []) ++
    [ImgEvent.makeVerityEv] ++
    (if !d && a.verity && !f then [ImgEvent.patchRootUuidEv] else []) ++
    (if !d && a.verity && !f then [ImgEvent.insertVerityEv] else [])

/-- Embeds `need_cache_images` (lines 6723-6733): incremental mode, and
either a forced refresh (`force_count > 1`) or a missing cache artifact. -/
def need_cache_images (a : MkosiArgs) (fs : FsState) : Bool :=
  if !a.incremental then false
  else if 1 < a.force_count then true
  else
    !(match a.cache_pre_dev with
      | some n => (fs n).isSome
      | none => false) ||
    !(match a.cache_pre_inst with
      | some n => (fs n).isSome
      | none => false)

/-- Observable stage calls of `build_stuff` (lines 6766-6813). -/
inductive PipeEvent where
  | buildImageEv (dev forCache : Bool)
  | saveCacheEv (dev : Bool)
  | removeArtifactsEv (dev forCache : Bool)
  | runScriptEv
deriving DecidableEq, Repr

/-- Whether a `remove_artifacts` call (lines 6736-6763) removes anything: it
removes the image, archive and tree for a cache build (`for_cache`) or a
development build (`do_run_build_script`), and returns without removing
otherwise. -/
def remove_artifacts_removes (dev forCache : Bool) : Bool := forCache || dev

/-- The trace of `build_stuff` (lines 6766-6813) on the success path: the
cache stage (development cache pass only when a build script is configured,
then the final cache pass), the development stage (when a build script is
configured), then the final stage unless skipped.  The `removeArtifactsEv`
flags are the arguments of the three call sites (lines 6792, 6798, 6806):
`for_cache` is never passed and defaults to False. -/
def build_stuff_trace (a : MkosiArgs) (fs : FsState) : List PipeEvent :=
  (if need_cache_images a fs then
    (if a.has_build_script then
      [PipeEvent.buildImageEv true true, PipeEvent.saveCacheEv true,
       PipeEvent.removeArtifactsEv true false]
     else []) ++
    [PipeEvent.buildImageEv false true, PipeEvent.saveCacheEv false,
     PipeEvent.removeArtifactsEv false false]
   else []) ++
  (if a.has_build_script then
    [PipeEvent.buildImageEv true false, PipeEvent.runScriptEv,
     PipeEvent.removeArtifactsEv true false]
   else []) ++
  (if !a.skip_final_phase then [PipeEvent.buildImageEv false false] else [])

/-- A configuration whose bundle field presence the C7 counterexample
probes: incremental ext4 build, no build script, final-stage cache name 1. -/
def c7args : MkosiArgs :=
  ⟨false, OutputFormat.gpt_ext4, false, false, false, true, some 0, some 1, 2, false,
   false, false, false, none, none, none, none, none, none⟩

/-- A file system holding the final-stage cache artifact (name 1). -/
def c7fsYes : FsState := fun n => if n = 1 then some 42 else none

/-- A file system holding no cache artifacts. -/
def c7fsNo : FsState := fun _ => none

/-- The C8 counterexample configuration: incremental, caches missing, no
build script configured. -/
def c8args : MkosiArgs :=
  ⟨false, OutputFormat.gpt_ext4, false, false, false, true, some 0, some 1, 0, false,
   false, false, false, none, none, none, none, none, none⟩

/-- The empty file system for the C8 counterexample. -/
def c8fs : FsState := fun _ => none

/-- A C8 witness configuration with a build script. -/
def c8argsBS : MkosiArgs :=
  ⟨false, OutputFormat.gpt_ext4, false, false, true, true, some 0, some 1, 0, false,
   false, false, false, none, none, none, none, none, none⟩

/-- The C6 witness configuration: a generated-root ext4 build with verity
requested. -/
def c6args : MkosiArgs :=
  ⟨true, OutputFormat.gpt_ext4, true, false, false, false, none, none, 0, false,
   false, false, false, none, none, none, none, none, none⟩

/-- The C9 witness configuration: incremental ext4 build with final-stage
cache name 5. -/
def c9args : MkosiArgs :=
  ⟨false, OutputFormat.gpt_ext4, false, false, false, true, some 4, some 5, 0, false,
   false, false, false, none, none, none, none, none, none⟩

/-- A file system holding cache artifact 5 with content 77. -/
def c9fs : FsState := fun n => if n = 5 then some 77 else none

section Lemmas

lemma roundup_ge (x step : Nat) (h : 0 < step) : x ≤ roundup x step := by
  unfold roundup
  rw [Nat.mul_comm]
  have hdm := Nat.div_add_mod (x + step - 1) step
  have hlt : (x + step - 1) % step < step := Nat.mod_lt _ h
  omega

lemma dvd_roundup (x step : Nat) : step ∣ roundup x step :=
  dvd_mul_left step _

lemma footer_512 (t : PartitionTable) (h : t.sector_size = 512) :
    t.footer_size 128 = 16896 := by
  unfold PartitionTable.footer_size
  rw [h]

lemma dvd_512_first_usable (t : PartitionTable) (hs : t.sector_size = 512)
    (hg : t.grain = 4096) : 512 ∣ t.first_usable_offset 128 := by
  unfold PartitionTable.first_usable_offset
  split
  · rw [hg]
    exact Dvd.dvd.trans (by norm_num) (dvd_roundup _ _)
  · split
    · rw [hs]; exact dvd_mul_left 512 _
    · rw [hg]
      exact Dvd.dvd.trans (by norm_num) (dvd_roundup _ _)

lemma lastSectorOf_append (ps : List PartDesc) (p : PartDesc) :
    lastSectorOf (ps ++ [p]) = max (lastSectorOf ps) (p.start + p.size) := by
  unfold lastSectorOf
  rw [List.foldl_append]
  rfl

lemma effective_sector (args : Args) (s : DiskState) :
    (effective_table args s).sector_size = 512 := by
  unfold effective_table
  split <;> rfl

lemma effective_grain (args : Args) (s : DiskState) :
    (effective_table args s).grain = 4096 := by
  unfold effective_table
  split <;> rfl

lemma dvd_512_luks (args : Args) : (512 : Nat) ∣ luks_extra_of args := by
  unfold luks_extra_of
  split <;> norm_num

lemma roundup512_ge (b : Nat) (hb : 0 < b) : 512 ≤ roundup b 512 := by
  unfold roundup
  have h1 : 1 ≤ (b + 512 - 1) / 512 := (Nat.one_le_div_iff (by norm_num)).mpr (by omega)
  calc 512 = 1 * 512 := by norm_num
    _ ≤ (b + 512 - 1) / 512 * 512 := Nat.mul_le_mul_right 512 h1

lemma last_le_first_usable (args : Args) (s : DiskState) :
    lastSectorOf (effective_table args s).partitions * 512 ≤
      (effective_table args s).first_usable_offset 128 := by
  unfold effective_table
  split
  · unfold readTable PartitionTable.first_usable_offset
    simp only [Option.getD_some]
    by_cases h0 : lastSectorOf s.parts * 512 = 0
    · rw [h0]
      exact Nat.zero_le _
    · rw [if_pos h0]
      exact roundup_ge _ _ (by norm_num)
  · simp [PartitionTable.empty, lastSectorOf]

lemma insert_ran (args : Args) (s : DiskState) (b : Nat) (pn : String) (ty : Nat)
    (ro : Bool) (u : Option Nat) :
    (insert_partition args s b pn ty ro u).1.ran_sfdisk = true := by
  simp [insert_partition]

lemma insert_parts (args : Args) (s : DiskState) (b : Nat) (pn : String) (ty : Nat)
    (ro : Bool) (u : Option Nat) :
    (insert_partition args s b pn ty ro u).1.parts =
      (effective_table args s).partitions ++
        [⟨(effective_table args s).first_usable_offset 128 / 512,
          (roundup b 512 + luks_extra_of args) / 512, u, ty, ro, pn⟩] := by
  simp [insert_partition, effective_sector args s]

lemma insert_deviceSize (args : Args) (s : DiskState) (b : Nat) (pn : String) (ty : Nat)
    (ro : Bool) (u : Option Nat) :
    (insert_partition args s b pn ty ro u).1.deviceSize =
      roundup ((effective_table args s).first_usable_offset 128 +
        roundup b 512 + luks_extra_of args + 16896) 4096 := by
  have hf : (effective_table args s).footer_size 128 = 16896 :=
    footer_512 _ (effective_sector args s)
  simp [insert_partition, hf]

lemma insert_next_offset (args : Args) (s : DiskState) (b : Nat) (pn : String) (ty : Nat)
    (ro : Bool) (u : Option Nat) (hb : 0 < b) :
    (effective_table args (insert_partition args s b pn ty ro u).1).first_usable_offset 128 =
      roundup ((effective_table args s).first_usable_offset 128 +
        roundup b 512 + luks_extra_of args) 4096 := by
  obtain ⟨qo, hqo⟩ :=
    dvd_512_first_usable (effective_table args s) (effective_sector args s)
      (effective_grain args s)
  obtain ⟨qb, hqb⟩ :
      (512 : Nat) ∣ roundup b 512 + luks_extra_of args :=
    dvd_add (dvd_roundup b 512) (dvd_512_luks args)
  have hB512 : 512 ≤ roundup b 512 + luks_extra_of args :=
    le_trans (roundup512_ge b hb) (Nat.le_add_right _ _)
  have hle := last_le_first_usable args s
  have hstart : (effective_table args s).first_usable_offset 128 / 512 = qo := by
    rw [hqo]
    exact Nat.mul_div_cancel_left qo (by norm_num)
  have hnsec : (roundup b 512 + luks_extra_of args) / 512 = qb := by
    rw [hqb]
    exact Nat.mul_div_cancel_left qb (by norm_num)
  have hran := insert_ran args s b pn ty ro u
  have hparts := insert_parts args s b pn ty ro u
  unfold effective_table
  rw [if_pos hran]
  unfold readTable PartitionTable.first_usable_offset
  simp only [Option.getD_some, hparts, lastSectorOf_append]
  have hmax : max (lastSectorOf (effective_table args s).partitions) (qo + qb) = qo + qb := by
    apply Nat.max_eq_right
    have h1 : lastSectorOf (effective_table args s).partitions * 512 ≤ (qo + qb) * 512 := by
      omega
    exact Nat.le_of_mul_le_mul_right h1 (by norm_num)
  rw [hstart, hnsec, hmax]
  have hvne : (qo + qb) * 512 ≠ 0 := by omega
  rw [if_pos hvne]
  have hval : (qo + qb) * 512 =
      (effective_table args s).first_usable_offset 128 + roundup b 512 + luks_extra_of args := by
    omega
  rw [hval]
  rfl

lemma hexVal_getD_lt (c : Char) : (hexVal c).getD 0 < 16 := by
  unfold hexVal
  split_ifs <;> simp <;> omega

lemma hexVal_ne_dash (c : Char) (h : (hexVal c).isSome = true) : c ≠ '-' := by
  intro hc
  subst hc
  exact absurd h (by decide)

lemma filter_dash_eq (l : List Char) (h : ∀ c ∈ l, (hexVal c).isSome) :
    l.filter (fun c => c ≠ '-') = l := by
  apply List.filter_eq_self.mpr
  intro a ha
  exact decide_eq_true (hexVal_ne_dash a (h a ha))

lemma parseHexAux_eq_valHex (l : List Char) (acc : Nat) (h : ∀ c ∈ l, (hexVal c).isSome) :
    parseHexAux l acc = some (valHex l acc) := by
  induction l generalizing acc with
  | nil => rfl
  | cons c cs ih =>
    have hc := h c (List.mem_cons_self c cs)
    rcases hv : hexVal c with _ | v
    · rw [hv] at hc
      simp at hc
    · show parseHexAux (c :: cs) acc = some (valHex (c :: cs) acc)
      unfold parseHexAux valHex
      rw [hv]
      exact ih _ (fun d hd => h d (List.mem_cons_of_mem c hd))

lemma valHex_acc (l : List Char) : ∀ acc, valHex l acc = acc * 16 ^ l.length + valHex l 0 := by
  induction l with
  | nil =>
    intro acc
    simp [valHex]
  | cons c cs ih =>
    intro acc
    have hr : valHex (c :: cs) 0 = (hexVal c).getD 0 * 16 ^ cs.length + valHex cs 0 := by
      show valHex cs (0 * 16 + (hexVal c).getD 0) = _
      rw [ih (0 * 16 + (hexVal c).getD 0)]
      simp
    rw [hr]
    show valHex cs (acc * 16 + (hexVal c).getD 0) = _
    rw [ih (acc * 16 + (hexVal c).getD 0), List.length_cons, pow_succ]
    ring

lemma valHex_append (a b : List Char) : ∀ acc, valHex (a ++ b) acc = valHex b (valHex a acc) := by
  induction a with
  | nil =>
    intro acc
    rfl
  | cons c cs ih =>
    intro acc
    exact ih _

lemma valHex_lt (l : List Char) : valHex l 0 < 16 ^ l.length := by
  induction l with
  | nil => norm_num [valHex]
  | cons c cs ih =>
    have hv : (hexVal c).getD 0 < 16 := hexVal_getD_lt c
    show valHex cs (0 * 16 + (hexVal c).getD 0) < _
    rw [valHex_acc cs (0 * 16 + (hexVal c).getD 0)]
    have h0 : 0 * 16 + (hexVal c).getD 0 = (hexVal c).getD 0 := by ring
    rw [h0, List.length_cons, pow_succ]
    calc (hexVal c).getD 0 * 16 ^ cs.length + valHex cs 0
        < (hexVal c).getD 0 * 16 ^ cs.length + 16 ^ cs.length := by omega
      _ = ((hexVal c).getD 0 + 1) * 16 ^ cs.length := by ring
      _ ≤ 16 * 16 ^ cs.length := Nat.mul_le_mul_right _ (by omega)
      _ = 16 ^ cs.length * 16 := by ring

end Lemmas

/-- C2 counterexample: two 512-byte blobs inserted into a fresh image.  The
code produces device sizes 40960 then 45056 (the second partition is placed
at the first 4096-grain-aligned offset past the first one, 24576, not at
20480 + 512), while the claimed formula
`round4096(firstUsableOffset() + sum of sector-rounded blob sizes + footerSize())`
with the initial table's first usable offset 20480 predicts 40960 for both
calls. -/
theorem insert_sizes_counterexample :
    device_sizes c2args c2s0
        [⟨512, "p1", 0, false, none⟩, ⟨512, "p2", 0, false, none⟩] = [40960, 45056] ∧
    spec_claimed_sizes ((PartitionTable.empty none).first_usable_offset 128) 16896 0
        [512, 512] = [40960, 40960] ∧
    device_sizes c2args c2s0
        [⟨512, "p1", 0, false, none⟩, ⟨512, "p2", 0, false, none⟩] ≠
      spec_claimed_sizes ((PartitionTable.empty none).first_usable_offset 128) 16896 0
        [512, 512] := by
  refine ⟨by decide, by decide, by decide⟩

/-- C2 (amended): for every sequence of `insert_partition` calls with nonempty
blobs, the device size after each call equals
`round4096(off + blobSize + luksExtra + footerSize())`, where `blobSize` is
the blob size rounded up to the sector size, and `off` is the first usable
offset of the table read back before that call; `off` follows the recurrence
off(1) = firstUsableOffset(initial table),
off(k+1) = round4096(off(k) + blobSize(k) + luksExtra).  (The spec's plain-sum
formula holds only when each rounded blob size is a multiple of the 4096-byte
grain.) -/
theorem insert_sizes_spec (args : Args) (reqs : List InsertReq) (s : DiskState)
    (hpos : ∀ r ∈ reqs, 0 < r.blob) :
    device_sizes args s reqs =
      code_sizes args ((effective_table args s).first_usable_offset 128) reqs := by
  induction reqs generalizing s with
  | nil => rfl
  | cons r rs ih =>
    have hb : 0 < r.blob := hpos r (List.mem_cons_self r rs)
    have hrest : ∀ q ∈ rs, 0 < q.blob := fun q hq => hpos q (List.mem_cons_of_mem r hq)
    have h1 : device_sizes args s (r :: rs) =
        (insert_partition args s r.blob r.pname r.ptype r.ro r.puuid).1.deviceSize ::
          device_sizes args (insert_partition args s r.blob r.pname r.ptype r.ro r.puuid).1 rs := rfl
    have h2 : code_sizes args ((effective_table args s).first_usable_offset 128) (r :: rs) =
        roundup ((effective_table args s).first_usable_offset 128 +
            roundup r.blob 512 + luks_extra_of args + 16896) 4096 ::
          code_sizes args (roundup ((effective_table args s).first_usable_offset 128 +
            roundup r.blob 512 + luks_extra_of args) 4096) rs := rfl
    rw [h1, h2, insert_deviceSize args s r.blob r.pname r.ptype r.ro r.puuid,
      ih _ hrest, insert_next_offset args s r.blob r.pname r.ptype r.ro r.puuid hb]

/-- C2 witness: the amended geometry law evaluated on the two-blob
counterexample run ([40960, 45056] on both sides). -/
theorem insert_sizes_spec_witness :
    device_sizes c2args c2s0
        [⟨512, "p1", 0, false, none⟩, ⟨512, "p2", 0, false, none⟩] =
      code_sizes c2args ((effective_table c2args c2s0).first_usable_offset 128)
        [⟨512, "p1", 0, false, none⟩, ⟨512, "p2", 0, false, none⟩] :=
  insert_sizes_spec c2args
    [⟨512, "p1", 0, false, none⟩, ⟨512, "p2", 0, false, none⟩] c2s0 (by decide)

/-- C4: insertion is append-only: `insert_partition` replays all descriptor
lines of the re-read table verbatim and appends exactly one new descriptor
after them, so the start offset (indeed the whole descriptor) of every
partition present before the insertion is unchanged after it. -/
theorem insert_partition_append_only (args : Args) (s : DiskState) (b : Nat)
    (pn : String) (ty : Nat) (ro : Bool) (u : Option Nat)
    (h : s.ran_sfdisk = true) :
    (insert_partition args s b pn ty ro u).1.parts.length = s.parts.length + 1 ∧
    (∀ i, i < s.parts.length →
      (insert_partition args s b pn ty ro u).1.parts[i]? = s.parts[i]?) := by
  have hparts := insert_parts args s b pn ty ro u
  have heff : (effective_table args s).partitions = s.parts := by
    unfold effective_table
    rw [if_pos h]
    rfl
  rw [heff] at hparts
  constructor
  · rw [hparts]
    simp
  · intro i hi
    rw [hparts]
    exact List.getElem?_append_left hi

/-- C4 witness: inserting into a one-partition table leaves the existing
descriptor in place. -/
theorem insert_partition_append_only_witness :
    (insert_partition c2args
        ⟨[⟨40, 1, none, 0, false, "p1"⟩], 40960, true, some 40⟩
        512 "p2" 0 false none).1.parts.length =
      (⟨[⟨40, 1, none, 0, false, "p1"⟩], 40960, true, some 40⟩ : DiskState).parts.length + 1 ∧
    (∀ i, i < (⟨[⟨40, 1, none, 0, false, "p1"⟩], 40960, true, some 40⟩ : DiskState).parts.length →
      (insert_partition c2args
          ⟨[⟨40, 1, none, 0, false, "p1"⟩], 40960, true, some 40⟩
          512 "p2" 0 false none).1.parts[i]? =
        (⟨[⟨40, 1, none, 0, false, "p1"⟩], 40960, true, some 40⟩ : DiskState).parts[i]?) :=
  insert_partition_append_only c2args
    ⟨[⟨40, 1, none, 0, false, "p1"⟩], 40960, true, some 40⟩ 512 "p2" 0 false none rfl

/-- C10: `insert_partition` returns the blob's file size rounded up to 512
bytes, excluding the 16 MiB encryption reservation; yet when full-disk
encryption is active, the new descriptor's size field covers
blobSize + 16 MiB (its byte size exceeds the return value by exactly
16 MiB) and the image is grown by an amount that includes the 16 MiB too. -/
theorem insert_partition_return_excludes_luks (args : Args) (s : DiskState) (b : Nat)
    (pn : String) (ty : Nat) (ro : Bool) (u : Option Nat) :
    (insert_partition args s b pn ty ro u).2 = roundup b 512 ∧
    (args.encrypt_all = true →
      (insert_partition args s b pn ty ro u).1.parts.getLast? = some
          ⟨(effective_table args s).first_usable_offset 128 / 512,
            (roundup b 512 + 16 * 1024 * 1024) / 512, u, ty, ro, pn⟩ ∧
      (roundup b 512 + 16 * 1024 * 1024) / 512 * 512 =
        (insert_partition args s b pn ty ro u).2 + 16 * 1024 * 1024 ∧
      (insert_partition args s b pn ty ro u).1.deviceSize =
        roundup ((effective_table args s).first_usable_offset 128 +
          roundup b 512 + 16 * 1024 * 1024 + 16896) 4096) := by
  have hret : (insert_partition args s b pn ty ro u).2 = roundup b 512 := by
    simp [insert_partition]
  refine ⟨hret, fun henc => ⟨?_, ?_, ?_⟩⟩
  · have hparts := insert_parts args s b pn ty ro u
    have hluks : luks_extra_of args = 16 * 1024 * 1024 := by
      unfold luks_extra_of
      rw [henc]
      rfl
    rw [hparts, hluks]
    exact List.getLast?_concat _
  · have hdvd : (512 : Nat) ∣ roundup b 512 + 16 * 1024 * 1024 :=
      dvd_add (dvd_roundup b 512) (by norm_num)
    rw [hret, Nat.div_mul_cancel hdvd]
  · have hluks : luks_extra_of args = 16 * 1024 * 1024 := by
      unfold luks_extra_of
      rw [henc]
      rfl
    rw [insert_deviceSize args s b pn ty ro u, hluks]

/-- C10 witness: a 700-byte blob inserted with full-disk encryption active:
the call returns 1024 bytes while the descriptor covers 1024 + 16 MiB. -/
theorem insert_partition_return_excludes_luks_witness :
    (insert_partition ⟨none, true⟩ c2s0 700 "root" 7 false none).2 = roundup 700 512 ∧
    ((⟨none, true⟩ : Args).encrypt_all = true →
      (insert_partition ⟨none, true⟩ c2s0 700 "root" 7 false none).1.parts.getLast? = some
          ⟨(effective_table ⟨none, true⟩ c2s0).first_usable_offset 128 / 512,
            (roundup 700 512 + 16 * 1024 * 1024) / 512, none, 7, false, "root"⟩ ∧
      (roundup 700 512 + 16 * 1024 * 1024) / 512 * 512 =
        (insert_partition ⟨none, true⟩ c2s0 700 "root" 7 false none).2 + 16 * 1024 * 1024 ∧
      (insert_partition ⟨none, true⟩ c2s0 700 "root" 7 false none).1.deviceSize =
        roundup ((effective_table ⟨none, true⟩ c2s0).first_usable_offset 128 +
          roundup 700 512 + 16 * 1024 * 1024 + 16896) 4096) :=
  insert_partition_return_excludes_luks ⟨none, true⟩ c2s0 700 "root" 7 false none

/-- C1 counterexample: on a table with the fixed 512-byte sector size (the
synthesized empty table), `footer_size()` evaluates to 16896, not 17408. -/
theorem footer_size_not_17408 :
    (PartitionTable.empty none).footer_size 128 ≠ 17408 := by decide

/-- C1 (amended): for sector size 512 and the fixed 128-entry partition array,
`PartitionTable.footer_size()` returns exactly 16896 bytes, computed as
1 header sector plus ceil(128*128/sectorSize) = 32 partition-entry-array
sectors, i.e. 33 sectors of 512 bytes. -/
theorem footer_size_512_eq (t : PartitionTable) (h : t.sector_size = 512) :
    t.footer_size 128 = (1 + (128 * 128 + 512 - 1) / 512) * 512 ∧
      t.footer_size 128 = 16896 := by
  constructor
  · unfold PartitionTable.footer_size
    rw [h]
  · exact footer_512 t h

/-- C1 witness: the amended theorem evaluated on the synthesized empty table,
whose sector size is 512. -/
theorem footer_size_512_eq_witness :
    (PartitionTable.empty none).footer_size 128 = (1 + (128 * 128 + 512 - 1) / 512) * 512 ∧
      (PartitionTable.empty none).footer_size 128 = 16896 :=
  footer_size_512_eq (PartitionTable.empty none) rfl

/-- C3: `first_usable_offset()` returns: if a nonzero last occupied byte
offset is recorded (the "partitions exist" case of tables read back from a
populated disk), that offset rounded up to the alignment grain; otherwise, if
a first-LBA override is configured, exactly `first_lba * sector_size` with no
rounding; otherwise one sector (the protective MBR) plus the footer size,
rounded up to the grain. -/
theorem first_usable_offset_spec (t : PartitionTable) :
    (∀ n, t.last_partition_sector = some n → n ≠ 0 →
      t.first_usable_offset 128 = roundup n t.grain) ∧
    ((t.last_partition_sector = none ∨ t.last_partition_sector = some 0) →
      ∀ l, t.first_lba = some l →
      t.first_usable_offset 128 = l * t.sector_size) ∧
    ((t.last_partition_sector = none ∨ t.last_partition_sector = some 0) →
      t.first_lba = none →
      t.first_usable_offset 128 = roundup (t.sector_size + t.footer_size 128) t.grain) := by
  refine ⟨?_, ?_, ?_⟩
  · intro n hn hnz
    unfold PartitionTable.first_usable_offset
    rw [hn]
    simp [hnz]
  · intro hlast l hl
    unfold PartitionTable.first_usable_offset
    have h0 : t.last_partition_sector.getD 0 = 0 := by
      rcases hlast with h | h <;> simp [h]
    rw [h0, hl]
    simp
  · intro hlast hl
    unfold PartitionTable.first_usable_offset
    have h0 : t.last_partition_sector.getD 0 = 0 := by
      rcases hlast with h | h <;> simp [h]
    rw [h0, hl]
    simp

/-- C3 witness: the three branches evaluated on concrete tables: a populated
table (last occupied offset 20992), an empty table with a first-LBA override
of 64, and the plain empty table. -/
theorem first_usable_offset_spec_witness :
    (⟨[], some 20992, 512, none, 4096⟩ : PartitionTable).first_usable_offset 128 =
        roundup 20992 4096 ∧
    (PartitionTable.empty (some 64)).first_usable_offset 128 = 64 * 512 ∧
    (PartitionTable.empty none).first_usable_offset 128 = roundup (512 + 16896) 4096 := by
  refine ⟨?_, ?_, ?_⟩
  · exact (first_usable_offset_spec ⟨[], some 20992, 512, none, 4096⟩).1 20992 rfl (by decide)
  · exact ((first_usable_offset_spec (PartitionTable.empty (some 64))).2.1 (Or.inl rfl) 64 rfl)
  · have h := (first_usable_offset_spec (PartitionTable.empty none)).2.2 (Or.inl rfl) rfl
    rw [h]
    decide

/-- C5: for every 64-hex-digit root hash H, the UUID handed to the inserted
verity partition is UUID(H[-32:]) and the root partition's UUID is patched in
place to UUID(H[:32]); these are the tail and head 128 bits of H: both values
are below 2^128 and H's 256-bit value is head * 2^128 + tail.  Moreover
`insert_verity` performs exactly the generic insertion carrying the tail UUID,
and `patch_root_uuid` rewrites only the root partition's uuid field to the
head. -/
theorem verity_uuid_pairing (H : List Char) (hlen : H.length = 64)
    (hhex : ∀ c ∈ H, (hexVal c).isSome) :
    patch_root_uuid_val H = some (valHex (H.take 32) 0) ∧
    insert_verity_uuid H = some (valHex (H.drop 32) 0) ∧
    valHex (H.take 32) 0 < 2 ^ 128 ∧
    valHex (H.drop 32) 0 < 2 ^ 128 ∧
    valHex H 0 = valHex (H.take 32) 0 * 2 ^ 128 + valHex (H.drop 32) 0 ∧
    (∀ args s b pn ty, insert_verity_step args s b pn ty H =
      some (insert_partition args s b pn ty true (some (valHex (H.drop 32) 0)))) ∧
    (∀ s rp, patch_root_uuid_step s rp H =
      some ⟨s.parts.mapIdx (fun i p =>
              if i + 1 = rp then { p with puuid := some (valHex (H.take 32) 0) } else p),
            s.deviceSize, s.ran_sfdisk, s.tableFirstLba⟩) := by
  have h16 : (16 : Nat) ^ 32 = 2 ^ 128 := by norm_num
  have hsub : ∀ c ∈ H.take 32, (hexVal c).isSome :=
    fun c hc => hhex c (List.mem_of_mem_take hc)
  have hsub2 : ∀ c ∈ H.drop 32, (hexVal c).isSome :=
    fun c hc => hhex c (List.mem_of_mem_drop hc)
  have hlt : (H.take 32).length = 32 := by
    rw [List.length_take, hlen]
    omega
  have hld : (H.drop 32).length = 32 := by
    rw [List.length_drop, hlen]
  have hptake : pyUUID (H.take 32) = some (valHex (H.take 32) 0) := by
    unfold pyUUID
    rw [filter_dash_eq _ hsub, if_pos hlt]
    exact parseHexAux_eq_valHex _ 0 hsub
  have hpdrop : pyUUID (H.drop 32) = some (valHex (H.drop 32) 0) := by
    unfold pyUUID
    rw [filter_dash_eq _ hsub2, if_pos hld]
    exact parseHexAux_eq_valHex _ 0 hsub2
  have hhead : patch_root_uuid_val H = some (valHex (H.take 32) 0) := by
    unfold patch_root_uuid_val
    exact hptake
  have hdrop32 : H.length - 32 = 32 := by omega
  have htail : insert_verity_uuid H = some (valHex (H.drop 32) 0) := by
    unfold insert_verity_uuid
    rw [hdrop32]
    exact hpdrop
  have hsplit : H.take 32 ++ H.drop 32 = H := List.take_append_drop 32 H
  have hval : valHex H 0 = valHex (H.take 32) 0 * 2 ^ 128 + valHex (H.drop 32) 0 := by
    conv_lhs => rw [← hsplit]
    rw [valHex_append, valHex_acc (H.drop 32) (valHex (H.take 32) 0), hld, h16]
  have hbt : valHex (H.take 32) 0 < 2 ^ 128 := by
    have := valHex_lt (H.take 32)
    rwa [hlt, h16] at this
  have hbd : valHex (H.drop 32) 0 < 2 ^ 128 := by
    have := valHex_lt (H.drop 32)
    rwa [hld, h16] at this
  refine ⟨hhead, htail, hbt, hbd, hval, ?_, ?_⟩
  · intro args s b pn ty
    unfold insert_verity_step
    rw [htail]
  · intro s rp
    unfold patch_root_uuid_step
    rw [hhead]

/-- C5 witness: the pairing law evaluated on the fixture hash `c5hash`. -/
theorem verity_uuid_pairing_witness :
    patch_root_uuid_val c5hash = some (valHex (c5hash.take 32) 0) ∧
    insert_verity_uuid c5hash = some (valHex (c5hash.drop 32) 0) ∧
    valHex c5hash 0 = valHex (c5hash.take 32) 0 * 2 ^ 128 + valHex (c5hash.drop 32) 0 :=
  ⟨(verity_uuid_pairing c5hash (by decide) (by decide)).1,
   (verity_uuid_pairing c5hash (by decide) (by decide)).2.1,
   (verity_uuid_pairing c5hash (by decide) (by decide)).2.2.2.2.1⟩

/-- C6: whenever a build both inserts a generated root partition and inserts
a verity partition, the root insertion happens strictly before the verity
insertion in `build_image`'s call order; and `determine_partition_table`
reserves the verity partition number as the root partition number plus one
whenever verity is requested (both numbers are assigned even before their
content exists). -/
theorem root_before_verity (a : MkosiArgs) (d f : Bool) (fs : FsState) (tmp : Nat) :
    (ImgEvent.insertGeneratedRootEv ∈ build_image_trace a d f fs tmp →
     ImgEvent.insertVerityEv ∈ build_image_trace a d f fs tmp →
     (build_image_trace a d f fs tmp).indexOf ImgEvent.insertGeneratedRootEv <
       (build_image_trace a d f fs tmp).indexOf ImgEvent.insertVerityEv) ∧
    (a.verity = true →
      (determine_partition_table a).1.verity =
        some ((determine_partition_table a).1.root + 1)) := by
  constructor
  · intro h1 h2
    by_cases he1 : (!a.has_build_script && d) = true
    · have htr : build_image_trace a d f fs tmp = [] := by
        simp [build_image_trace, he1]
      rw [htr] at h1
      exact absurd h1 (by decide)
    · by_cases he2 : (f && (reuse_cache_image a d f fs tmp).2.2) = true
      · have htr : build_image_trace a d f fs tmp = [] := by
          simp [build_image_trace, he1, he2]
        rw [htr] at h1
        exact absurd h1 (by decide)
      · by_cases hg1 : (is_generated_root a && a.output_format.is_disk && !f) = true
        · by_cases hg2 : (!d && a.verity && !f) = true
          · have htr : build_image_trace a d f fs tmp =
                [ImgEvent.insertGeneratedRootEv, ImgEvent.makeVerityEv,
                 ImgEvent.patchRootUuidEv, ImgEvent.insertVerityEv] := by
              simp [build_image_trace, he1, he2, hg1, hg2]
            rw [htr]
            decide
          · have htr : build_image_trace a d f fs tmp =
                [ImgEvent.insertGeneratedRootEv, ImgEvent.makeVerityEv] := by
              simp [build_image_trace, he1, he2, hg1, hg2]
            rw [htr] at h2
            exact absurd h2 (by decide)
        · by_cases hg2 : (!d && a.verity && !f) = true
          · have htr : build_image_trace a d f fs tmp =
                [ImgEvent.makeVerityEv, ImgEvent.patchRootUuidEv,
                 ImgEvent.insertVerityEv] := by
              simp [build_image_trace, he1, he2, hg1, hg2]
            rw [htr] at h1
            exact absurd h1 (by decide)
          · have htr : build_image_trace a d f fs tmp = [ImgEvent.makeVerityEv] := by
              simp [build_image_trace, he1, he2, hg1, hg2]
            rw [htr] at h1
            exact absurd h1 (by decide)
  · intro hv
    simp [determine_partition_table, hv]

/-- C6 witness: a generated-root build with verity: the root insertion is at
index 0 and the verity insertion at index 3 of the trace, and the verity
number directly follows the root number. -/
theorem root_before_verity_witness :
    ((build_image_trace c6args false false c7fsNo 0).indexOf ImgEvent.insertGeneratedRootEv <
      (build_image_trace c6args false false c7fsNo 0).indexOf ImgEvent.insertVerityEv) ∧
    (determine_partition_table c6args).1.verity =
      some ((determine_partition_table c6args).1.root + 1) :=
  ⟨(root_before_verity c6args false false c7fsNo 0).1 (by decide) (by decide),
   (root_before_verity c6args false false c7fsNo 0).2 rfl⟩

/-- C7 counterexample: same configuration (incremental ext4 disk build, no
build script), same pass kind (final-stage cache-populate pass), different
cache state: when the cache image already exists the bundle's raw field is
absent (the pass exits with the empty bundle), when it does not the raw field
is present — so presence of the raw field is not fully determined by the
configuration and pass kind. -/
theorem bundle_presence_counterexample :
    raw_present c7args false true c7fsYes 99 = false ∧
    raw_present c7args false true c7fsNo 99 = true :=
  ⟨rfl, rfl⟩

/-- C7 (amended): the root-hash field of the bundle is present iff verity is
requested and the pass is neither a cache-populate pass nor a development
(build-script) pass; presence of the root-hash field is fully determined by
the configuration and pass kind (it does not depend on the cache state `fs`,
which appears on the left but not on the right).  Other bundle fields (e.g.
the raw image) may additionally depend on the cache state. -/
theorem root_hash_presence (a : MkosiArgs) (d f : Bool) (fs : FsState) (tmp : Nat) :
    root_hash_present a d f fs tmp = (a.verity && !d && !f) := by
  unfold root_hash_present
  by_cases he1 : (!a.has_build_script && d) = true
  · rw [if_pos he1]
    cases hd : d
    · rw [hd] at he1
      simp at he1
    · simp [hd]
  · rw [if_neg he1]
    by_cases he2 : (f && (reuse_cache_image a d f fs tmp).2.2) = true
    · rw [if_pos he2]
      cases hf : f
      · rw [hf] at he2
        simp at he2
      · simp [hf]
    · rw [if_neg he2]
      cases d <;> cases f <;> simp

/-- C8 counterexample: an incremental configuration with missing caches but
no build script: the cache stage runs, yet no development cache-populate pass
appears in the trace, and the artifact-removal call after the final
cache-populate pass (invoked with `do_run_build_script=False` and the default
`for_cache=False`) removes nothing. -/
theorem cache_stage_counterexample :
    need_cache_images c8args c8fs = true ∧
    PipeEvent.buildImageEv true true ∉ build_stuff_trace c8args c8fs ∧
    PipeEvent.removeArtifactsEv false false ∈ build_stuff_trace c8args c8fs ∧
    remove_artifacts_removes false false = false := by
  refine ⟨rfl, by decide, by decide, rfl⟩

/-- C8 (amended): when incremental caching is enabled and a cache artifact is
missing (or a refresh was forced), the pipeline runs the final pass exactly
once in cache-populate mode, immediately persists its result under the
final-stage cache name and then calls the artifact-removal helper — but that
call removes nothing, because neither `do_run_build_script` nor `for_cache`
is set at that call site; the development pass runs in cache-populate mode
(exactly once, with its save and an effective removal) iff a build script is
configured. -/
theorem cache_stage_spec (a : MkosiArgs) (fs : FsState)
    (h : need_cache_images a fs = true) :
    ((build_stuff_trace a fs).count (PipeEvent.buildImageEv false true) = 1 ∧
     [PipeEvent.buildImageEv false true, PipeEvent.saveCacheEv false,
      PipeEvent.removeArtifactsEv false false] <:+: build_stuff_trace a fs ∧
     remove_artifacts_removes false false = false) ∧
    (a.has_build_script = true →
      (build_stuff_trace a fs).count (PipeEvent.buildImageEv true true) = 1 ∧
      [PipeEvent.buildImageEv true true, PipeEvent.saveCacheEv true,
       PipeEvent.removeArtifactsEv true false] <+: build_stuff_trace a fs ∧
      remove_artifacts_removes true false = true) ∧
    (a.has_build_script = false →
      PipeEvent.buildImageEv true true ∉ build_stuff_trace a fs) := by
  unfold build_stuff_trace
  rw [if_pos h]
  cases hbs : a.has_build_script <;> cases hsk : a.skip_final_phase <;> decide

/-- C8 witness: the cache stage evaluated on a configuration with a build
script and missing caches. -/
theorem cache_stage_spec_witness :
    ((build_stuff_trace c8argsBS c8fs).count (PipeEvent.buildImageEv false true) = 1 ∧
     [PipeEvent.buildImageEv false true, PipeEvent.saveCacheEv false,
      PipeEvent.removeArtifactsEv false false] <:+: build_stuff_trace c8argsBS c8fs ∧
     remove_artifacts_removes false false = false) ∧
    (c8argsBS.has_build_script = true →
      (build_stuff_trace c8argsBS c8fs).count (PipeEvent.buildImageEv true true) = 1 ∧
      [PipeEvent.buildImageEv true true, PipeEvent.saveCacheEv true,
       PipeEvent.removeArtifactsEv true false] <+: build_stuff_trace c8argsBS c8fs ∧
      remove_artifacts_removes true false = true) ∧
    (c8argsBS.has_build_script = false →
      PipeEvent.buildImageEv true true ∉ build_stuff_trace c8argsBS c8fs) :=
  cache_stage_spec c8argsBS c8fs (by decide)

/-- C9: every cache reuse copies, never moves: after `reuse_cache_image` the
cache artifact still holds its original content, the working copy (when one
was made) carries exactly that content into the fresh temporary file; and
after `reuse_cache_tree` the cache artifact is likewise unchanged and the
working tree is either untouched or holds a copy of the cache content. -/
theorem cache_reuse_copies (a : MkosiArgs) (d f cached : Bool) (fs : FsState)
    (tmp root n c : Nat)
    (hname : (if d then a.cache_pre_dev else a.cache_pre_inst) = some n)
    (hc : fs n = some c) (htmp : tmp ≠ n) (hroot : root ≠ n) :
    ((reuse_cache_image a d f fs tmp).1 n = some c ∧
     ((reuse_cache_image a d f fs tmp).2.1 = none ∨
      (reuse_cache_image a d f fs tmp).2.1 = some c) ∧
     ((reuse_cache_image a d f fs tmp).2.1 = some c →
      (reuse_cache_image a d f fs tmp).1 tmp = some c)) ∧
    ((reuse_cache_tree a root d f cached fs).1 n = some c ∧
     ((reuse_cache_tree a root d f cached fs).1 root = fs root ∨
      (reuse_cache_tree a root d f cached fs).1 root = some c)) := by
  have hnt : n ≠ tmp := fun hh => htmp hh.symm
  have hnr : n ≠ root := fun hh => hroot hh.symm
  constructor
  · simp only [reuse_cache_image, copy_image_temporary, hname, hc]
    split_ifs <;> simp [fs_set, hnt, hc]
  · simp only [reuse_cache_tree, hname, hc]
    split_ifs <;> simp [fs_set, hnr, hc]

/-- C9 witness: reusing cache artifact 5 (content 77) into temporary file 9
and tree 3 leaves the artifact holding 77. -/
theorem cache_reuse_copies_witness :
    ((reuse_cache_image c9args false false c9fs 9).1 5 = some 77 ∧
     ((reuse_cache_image c9args false false c9fs 9).2.1 = none ∨
      (reuse_cache_image c9args false false c9fs 9).2.1 = some 77) ∧
     ((reuse_cache_image c9args false false c9fs 9).2.1 = some 77 →
      (reuse_cache_image c9args false false c9fs 9).1 9 = some 77)) ∧
    ((reuse_cache_tree c9args 3 false false false c9fs).1 5 = some 77 ∧
     ((reuse_cache_tree c9args 3 false false false c9fs).1 3 = c9fs 3 ∨
      (reuse_cache_tree c9args 3 false false false c9fs).1 3 = some 77)) :=
  cache_reuse_copies c9args false false false c9fs 9 3 5 77 rfl rfl
    (by decide) (by decide)
